import Mathlib

set_option maxRecDepth 100000

/-!
Verification development for the voice-webhook core of the `rusty_twilio`
library: the Twilio signature validator (`src/validation.rs`) and the TwiML
voice-response builder/serializer (`src/twiml/voice.rs`).

Machine bytes are modelled as `Nat` (each `< 256` where it matters), strings
as Lean `String` (Rust strings are UTF-8; `strBytes` gives their byte
sequence).  The external `sha1`, `hmac` and `base64` crates implement the
standard SHA-1, HMAC and Base64 algorithms; they are embedded below from
those public specifications (FIPS 180, RFC 2104, RFC 4648).
-/

/-- UTF-8 encoding of a single character (the standard encoding used by
Rust's `str::as_bytes`). -/
def utf8Bytes (c : Char) : List Nat :=
  let v := c.toNat
  if v < 128 then [v]
  else if v < 2048 then [192 + v >>> 6, 128 + v % 64]
  else if v < 65536 then [224 + v >>> 12, 128 + (v >>> 6) % 64, 128 + v % 64]
  else [240 + v >>> 18, 128 + (v >>> 12) % 64, 128 + (v >>> 6) % 64, 128 + v % 64]

/-- The UTF-8 byte sequence of a string (Rust `s.as_bytes()`). -/
def strBytes (s : String) : List Nat := (s.data.map utf8Bytes).flatten

/-- Truncation to a 32-bit word. -/
def w32 (n : Nat) : Nat := n % 4294967296

/-- 32-bit left rotation (the argument is a 32-bit word). -/
def rotl (x s : Nat) : Nat := ((x <<< s) % 4294967296) ||| (x >>> (32 - s))

/-- The SHA-1 round function `f_t` (FIPS 180-4 §4.1.1). -/
def sha1F (t b c d : Nat) : Nat :=
  if t < 20 then (b &&& c) ||| ((b ^^^ 4294967295) &&& d)
  else if t < 40 then b ^^^ c ^^^ d
  else if t < 60 then (b &&& c) ||| (b &&& d) ||| (c &&& d)
  else b ^^^ c ^^^ d

/-- The SHA-1 round constants `K_t`. -/
def sha1K (t : Nat) : Nat :=
  if t < 20 then 1518500249
  else if t < 40 then 1859775393
  else if t < 60 then 2400959708
  else 3395469782

/-- Big-endian 32-bit words from a byte list (length a multiple of 4). -/
def bytesToWordsBE : List Nat → List Nat
  | b0 :: b1 :: b2 :: b3 :: rest =>
      (((b0 * 256 + b1) * 256 + b2) * 256 + b3) :: bytesToWordsBE rest
  | _ => []

/-- Message-schedule expansion, on the reversed word list (most recent word
first): prepends `k` further words `rotl1 (w[t-3] ^ w[t-8] ^ w[t-14] ^ w[t-16])`. -/
def expandRev : Nat → List Nat → List Nat
  | 0, ws => ws
  | k + 1, ws =>
      expandRev k
        (rotl (((ws.getD 2 0) ^^^ (ws.getD 7 0)) ^^^ ((ws.getD 13 0) ^^^ (ws.getD 15 0))) 1 :: ws)

/-- One SHA-1 state: the five working words. -/
def Sha1State := Nat × Nat × Nat × Nat × Nat

/-- The 80 SHA-1 rounds, consuming the expanded schedule. -/
def sha1Rounds : Nat → List Nat → Sha1State → Sha1State
  | _, [], st => st
  | t, wt :: ws, (a, b, c, d, e) =>
      sha1Rounds (t + 1) ws
        (w32 (rotl a 5 + sha1F t b c d + e + sha1K t + wt), a, rotl b 30, c, d)

/-- Compression of one 64-byte block into the chaining state. -/
def sha1Compress (h : Sha1State) (block : List Nat) : Sha1State :=
  let ws := (expandRev 64 (bytesToWordsBE block).reverse).reverse
  match h, sha1Rounds 0 ws h with
  | (h0, h1, h2, h3, h4), (a, b, c, d, e) =>
      (w32 (h0 + a), w32 (h1 + b), w32 (h2 + c), w32 (h3 + d), w32 (h4 + e))

/-- Folds the compression function over consecutive 64-byte blocks; the fuel
argument bounds the number of blocks (each step consumes at least one byte). -/
def sha1BlocksFuel : Nat → List Nat → Sha1State → Sha1State
  | 0, _, h => h
  | _, [], h => h
  | fuel + 1, b :: rest, h =>
      sha1BlocksFuel fuel (rest.drop 63) (sha1Compress h (b :: rest.take 63))

/-- Folds the compression function over consecutive 64-byte blocks. -/
def sha1Blocks (msg : List Nat) (h : Sha1State) : Sha1State :=
  sha1BlocksFuel msg.length msg h

/-- `k` bytes of `n`, big-endian. -/
def natToBE : Nat → Nat → List Nat
  | 0, _ => []
  | k + 1, n => (n >>> (8 * k)) % 256 :: natToBE k n

/-- SHA-1 padding: `0x80`, zeros to 56 mod 64, then the 64-bit bit length. -/
def sha1Pad (msg : List Nat) : List Nat :=
  msg ++ 128 :: List.replicate ((119 - msg.length % 64) % 64) 0 ++ natToBE 8 (8 * msg.length)

/-- SHA-1 digest (20 bytes) of a byte sequence. -/
def sha1 (msg : List Nat) : List Nat :=
  match sha1Blocks (sha1Pad msg) (1732584193, 4023233417, 2562383102, 271733878, 3285377520) with
  | (h0, h1, h2, h3, h4) =>
      natToBE 4 h0 ++ natToBE 4 h1 ++ natToBE 4 h2 ++ natToBE 4 h3 ++ natToBE 4 h4

/-- HMAC-SHA1 (RFC 2104) with block size 64, as computed by the `hmac` crate
for `Hmac<Sha1>`. -/
def hmacSha1 (key msg : List Nat) : List Nat :=
  let k0 := if key.length > 64 then sha1 key else key
  let k := k0 ++ List.replicate (64 - k0.length) 0
  sha1 ((k.map (fun b => b ^^^ 92)) ++ sha1 ((k.map (fun b => b ^^^ 54)) ++ msg))

/-- The standard Base64 alphabet (RFC 4648). -/
def b64Alphabet : List Char :=
  "ABCDEFGHIJKLMNOPQRSTUVWXYZabcdefghijklmnopqrstuvwxyz0123456789+/".toList

/-- Character for a 6-bit group. -/
def b64Char (n : Nat) : Char := b64Alphabet.getD n 'A'

/-- Base64 encoding (standard alphabet, with `=` padding) to characters. -/
def base64Chars : List Nat → List Char
  | [] => []
  | [b0] => [b64Char (b0 >>> 2), b64Char ((b0 % 4) <<< 4), '=', '=']
  | [b0, b1] =>
      [b64Char (b0 >>> 2), b64Char ((b0 % 4) <<< 4 ||| (b1 >>> 4)),
       b64Char ((b1 % 16) <<< 2), '=']
  | b0 :: b1 :: b2 :: rest =>
      b64Char (b0 >>> 2) :: b64Char ((b0 % 4) <<< 4 ||| (b1 >>> 4)) ::
      b64Char ((b1 % 16) <<< 2 ||| (b2 >>> 6)) :: b64Char (b2 % 64) :: base64Chars rest

/-- Base64 encoding as a string, matching
`base64::engine::general_purpose::STANDARD.encode`. -/
def base64Encode (bs : List Nat) : String := String.mk (base64Chars bs)


/-!
## Embedding of `src/validation.rs`

`http::HeaderMap` is read by `validate_twilio_signature` only at the keys
`Host`, `X-Twilio-Signature` and `Content-Type`; the embedding records just
those three entries, each as the raw bytes of the header value.
`HeaderValue::to_str` succeeds exactly when every byte is visible ASCII
(or a tab), which `headerToStr` mirrors.
-/

/-- HTTP method (`http::Method`); the validator only ever compares against
`POST`. -/
inductive Method where
  | GET
  | POST
  | PUT
  | DELETE
  | PATCH
  | HEAD
  | OPTIONS
  deriving DecidableEq, Repr

/-- The path-and-query component of an `http::Uri`; `asStr` renders it
exactly as received (`PathAndQuery::as_str`). -/
structure PathAndQuery where
  path : String
  query : Option String
  deriving DecidableEq, Repr

def PathAndQuery.asStr (pq : PathAndQuery) : String :=
  pq.path ++ (match pq.query with | some q => "?" ++ q | none => "")

/-- The part of `http::Uri` that `validate_twilio_signature` reads. -/
structure Uri where
  pathAndQuery : Option PathAndQuery
  deriving DecidableEq, Repr

/-- The three header entries `validate_twilio_signature` reads from the
`http::HeaderMap`, each as the value's raw bytes. -/
structure HeaderMap where
  host : Option (List Nat)
  xTwilioSignature : Option (List Nat)
  contentType : Option (List Nat)
  deriving DecidableEq, Repr

/-- A byte a `HeaderValue` may expose through `to_str`: visible ASCII or tab
(the `http` crate's `is_visible_ascii`). -/
def isVisibleAscii (b : Nat) : Bool := (32 ≤ b && b < 127) || b == 9

/-- `HeaderValue::to_str`: succeeds iff every byte is visible ASCII. -/
def headerToStr (bs : List Nat) : Option String :=
  if bs.all isVisibleAscii then some (String.mk (bs.map Char.ofNat)) else none

/-- Rust `str::starts_with` on string literals. -/
def strStartsWith (s pre : String) : Bool := pre.data.isPrefixOf s.data

/-- `SignatureValidationError` from `src/validation.rs`. -/
inductive SignatureValidationError where
  | MissingHost
  | MissingSignature
  | InvalidSignature
  | HmacError
  deriving DecidableEq, Repr

/-- Lexicographic strict order on character lists, comparing scalar values.
Rust's `Ord` for `String` compares UTF-8 bytes lexicographically, which for
valid UTF-8 coincides with lexicographic order on code points. -/
def charListLt : List Char → List Char → Bool
  | [], [] => false
  | [], _ :: _ => true
  | _ :: _, [] => false
  | a :: as, b :: bs =>
      if a.toNat < b.toNat then true
      else if b.toNat < a.toNat then false
      else charListLt as bs

/-- Rust's `String` ordering (ascending byte order). -/
def strLt (s t : String) : Bool := charListLt s.data t.data

theorem charToNat_inj {a b : Char} (h : a.toNat = b.toNat) : a = b :=
  Char.eq_of_val_eq (UInt32.ext h)

theorem charListLt_antisymm :
    ∀ {a b : List Char}, charListLt a b = false → charListLt b a = false → a = b := by
  intro a
  induction a with
  | nil =>
    intro b h1 _
    cases b with
    | nil => rfl
    | cons y ys => simp [charListLt] at h1
  | cons x xs ih =>
    intro b h1 h2
    cases b with
    | nil => simp [charListLt] at h2
    | cons y ys =>
      simp only [charListLt] at h1 h2
      by_cases hxy : x.toNat < y.toNat
      · rw [if_pos hxy] at h1; cases h1
      · by_cases hyx : y.toNat < x.toNat
        · rw [if_pos hyx] at h2; cases h2
        · rw [if_neg hxy, if_neg hyx] at h1
          rw [if_neg hyx, if_neg hxy] at h2
          have hx : x = y := charToNat_inj (by omega)
          rw [hx, ih h1 h2]

theorem strLt_connex {k k' : String} (h1 : strLt k k' = false) (h2 : k ≠ k') :
    strLt k' k = true := by
  cases hb : strLt k' k
  · exfalso
    apply h2
    obtain ⟨kd⟩ := k
    obtain ⟨kd'⟩ := k'
    have he : kd = kd' := charListLt_antisymm h1 hb
    rw [he]
  · rfl

/-- `BTreeMap<String, String>`: an association list strictly sorted by key
in ascending byte order (the map's iteration order). -/
structure FormParams where
  entries : List (String × String)
  sorted : List.Chain' (fun a b : String × String => strLt a.1 b.1 = true) entries

/-- `BTreeMap::insert` on the sorted entry list: place `(k, v)` at its key
position, replacing an existing entry with the same key. -/
def insertSorted (k v : String) : List (String × String) → List (String × String)
  | [] => [(k, v)]
  | (k', v') :: rest =>
      if strLt k k' then (k, v) :: (k', v') :: rest
      else if k = k' then (k, v) :: rest
      else (k', v') :: insertSorted k v rest

theorem head?_insertSorted (k v : String) :
    ∀ l : List (String × String),
      (insertSorted k v l).head? = some (k, v) ∨ (insertSorted k v l).head? = l.head? := by
  intro l
  cases l with
  | nil => left; rfl
  | cons hd tl =>
    obtain ⟨k', v'⟩ := hd
    by_cases h1 : strLt k k' = true
    · left; simp [insertSorted, if_pos h1]
    · by_cases h2 : k = k'
      · left; simp only [insertSorted, if_neg h1, if_pos h2, List.head?_cons]
      · right; simp only [insertSorted, if_neg h1, if_neg h2, List.head?_cons]

theorem chain'_insertSorted (k v : String) :
    ∀ l : List (String × String),
      List.Chain' (fun a b : String × String => strLt a.1 b.1 = true) l →
      List.Chain' (fun a b : String × String => strLt a.1 b.1 = true) (insertSorted k v l) := by
  intro l
  induction l with
  | nil => intro _; simp [insertSorted]
  | cons hd tl ih =>
    intro h
    obtain ⟨k', v'⟩ := hd
    by_cases h1 : strLt k k' = true
    · simp only [insertSorted, if_pos h1]
      exact List.chain'_cons.mpr ⟨h1, h⟩
    · by_cases h2 : k = k'
      · simp only [insertSorted, if_neg h1, if_pos h2]
        rw [List.chain'_cons'] at h ⊢
        obtain ⟨hh, ht⟩ := h
        exact ⟨fun y hy => h2 ▸ hh y hy, ht⟩
      · simp only [insertSorted, if_neg h1, if_neg h2]
        rw [List.chain'_cons'] at h ⊢
        obtain ⟨hh, ht⟩ := h
        refine ⟨?_, ih ht⟩
        intro y hy
        have h1' : strLt k k' = false := by
          cases hb : strLt k k'
          · rfl
          · exact absurd hb h1
        rcases head?_insertSorted k v tl with hc | hc
        · rw [hc] at hy
          have hy' : y = (k, v) := by
            cases hy
            rfl
          rw [hy']
          exact strLt_connex h1' h2
        · rw [hc] at hy
          exact hh y hy

/-- The entry list obtained by inserting the pairs of `l` one by one into an
empty `BTreeMap`. -/
def ofListEntries (l : List (String × String)) : List (String × String) :=
  l.foldl (fun m kv => insertSorted kv.1 kv.2 m) []

theorem chain'_foldl_insertSorted (l : List (String × String)) :
    ∀ init : List (String × String),
      List.Chain' (fun a b : String × String => strLt a.1 b.1 = true) init →
      List.Chain' (fun a b : String × String => strLt a.1 b.1 = true)
        (l.foldl (fun m kv => insertSorted kv.1 kv.2 m) init) := by
  induction l with
  | nil => intro init h; exact h
  | cons hd tl ih =>
    intro init h
    exact ih _ (chain'_insertSorted hd.1 hd.2 init h)

/-- A `BTreeMap` built by inserting every pair of `l` into an empty map. -/
def FormParams.ofList (l : List (String × String)) : FormParams :=
  ⟨ofListEntries l, chain'_foldl_insertSorted l [] (by simp)⟩

/-- Concatenation `key ++ value` over the map's entries in iteration (key)
order — the loop at `src/validation.rs:64-67`. -/
def sortedParamsConcat (ps : FormParams) : String :=
  String.join (ps.entries.map (fun kv => kv.1 ++ kv.2))

/-- Whether the `Content-Type` header value, read with `to_str().unwrap_or("")`,
starts with `application/x-www-form-urlencoded`. -/
def contentTypeIsForm (ct : Option (List Nat)) : Bool :=
  match ct with
  | some c => strStartsWith ((headerToStr c).getD "") "application/x-www-form-urlencoded"
  | none => false

/-- The string the HMAC is computed over (`src/validation.rs:52-71`): the
base URL `https://{host}{path_and_query}` and, for form-encoded POSTs with a
supplied parameter map, the sorted `key ++ value` concatenation. -/
def canonicalString (host : String) (method : Method) (uri : Uri)
    (contentType : Option (List Nat)) (post_params : Option FormParams) : String :=
  let url := "https://" ++ host ++ ((uri.pathAndQuery.map PathAndQuery.asStr).getD "")
  url ++
    (if method = Method.POST then
      match contentType with
      | some ct =>
          if strStartsWith ((headerToStr ct).getD "") "application/x-www-form-urlencoded" then
            match post_params with
            | some ps => sortedParamsConcat ps
            | none => ""
          else ""
      | none => ""
    else "")

/-- `validate_twilio_signature` (`src/validation.rs:30-86`).  The `HmacError`
branch of the source maps a failure of `Hmac::new_from_slice`, which accepts
keys of every length and never fails, so the embedding has no such branch. -/
def validate_twilio_signature (auth_token : String) (method : Method) (uri : Uri)
    (headers : HeaderMap) (post_params : Option FormParams) :
    Except SignatureValidationError Unit :=
  match headers.host with
  | none => .error .MissingHost
  | some hostBytes =>
    match headerToStr hostBytes with
    | none => .error .InvalidSignature
    | some host =>
      match headers.xTwilioSignature with
      | none => .error .MissingSignature
      | some sigBytes =>
        match headerToStr sigBytes with
        | none => .error .InvalidSignature
        | some signature =>
          let data := canonicalString host method uri headers.contentType post_params
          let computed := base64Encode (hmacSha1 (strBytes auth_token) (strBytes data))
          if signature = computed then .ok () else .error .InvalidSignature

deriving instance DecidableEq for Except

/-!
## Embedding of `src/twiml/voice.rs`

The document model (`VoiceResponse`, `Verb`, `Noun`, `Dial`, `Number`,
`Conference`, `Stream`, `Parameter`, `Track`) and the validation rules are
taken directly from the source.  Two external pieces are modelled:

* the `validator` derive: `validate()` evaluates each field's
  `#[validate(...)]` rules in declaration order and fails iff any rule
  fails, reporting `(field, message)` pairs (its `url` rule delegates to
  `url::Url::parse`; see `isValidUrl`);
* the `ToTwiML` derive of the workspace's `twiml_derive` crate and the
  `xml-rs` event writer.  Modelled from the spec: `twiml_derive` is not
  among the provided sources, so element/attribute rendering follows
  §4.4 of the spec (attributes in declared field order, omitted when
  absent, `#[xml(content)]` as element content, self-closing empty
  elements with a space before `/>`, and the leading XML declaration),
  which the unit tests of `voice.rs` pin byte for byte.
-/

namespace Twiml

/-- `Track` with its `strum(serialize_all = "snake_case")` rendering. -/
inductive Track where
  | InboundTrack
  | OutboundTrack
  | BothTracks
  deriving DecidableEq, Repr

def Track.toStr : Track → String
  | .InboundTrack => "inbound_track"
  | .OutboundTrack => "outbound_track"
  | .BothTracks => "both_tracks"

structure Parameter where
  name : String
  value : String
  deriving DecidableEq, Repr

def Parameter.new (name value : String) : Parameter := ⟨name, value⟩

structure Stream where
  url : String
  name : Option String
  track : Option Track
  status_callback : Option String
  status_callback_method : Option String
  parameters : Option (List Parameter)
  deriving DecidableEq, Repr

def Stream.new (url : String) : Stream := ⟨url, none, none, none, none, none⟩

structure Conference where
  name : String
  muted : Option Bool
  beep : Option String
  start_conference_on_enter : Option Bool
  end_conference_on_exit : Option Bool
  participant_label : Option String
  jitter_buffer_size : Option String
  wait_url : Option String
  wait_method : Option String
  max_participants : Option Nat
  record : Option String
  region : Option String
  trim : Option String
  coach : Option String
  status_callback : Option String
  status_callback_event : Option String
  status_callback_method : Option String
  recording_status_callback : Option String
  recording_status_callback_method : Option String
  recording_status_callback_event : Option String
  deriving DecidableEq, Repr

def Conference.new (name : String) : Conference :=
  ⟨name, none, none, none, none, none, none, none, none, none, none, none, none, none,
    none, none, none, none, none, none⟩

structure Number where
  number : String
  action : Option String
  method : Option String
  deriving DecidableEq, Repr

def Number.new (number : String) : Number := ⟨number, none, none⟩

inductive Noun where
  | Conference : Conference → Noun
  | Number : Number → Noun
  | Stream : Stream → Noun
  deriving DecidableEq, Repr

structure Dial where
  noun : Noun
  action : Option String
  answer_on_bridge : Option Bool
  caller_id : Option String
  call_reason : Option String
  hangup_on_star : Option Bool
  method : Option String
  record : Option String
  recording_status_callback : Option String
  recording_status_callback_method : Option String
  recording_status_callback_event : Option String
  recording_track : Option String
  refer_url : Option String
  refer_method : Option String
  ring_tone : Option String
  time_limit : Option Nat
  timeout : Option Nat
  trim : Option String
  sequential : Option Bool
  deriving DecidableEq, Repr

def Dial.new (noun : Noun) : Dial :=
  ⟨noun, none, none, none, none, none, none, none, none, none, none, none, none, none,
    none, none, none, none, none⟩

inductive Verb where
  | Connect : Noun → Verb
  | Dial : Dial → Verb
  | Reject : Verb
  deriving DecidableEq, Repr

structure VoiceResponse where
  verbs : List Verb
  deriving DecidableEq, Repr

def VoiceResponse.new : VoiceResponse := ⟨[]⟩

def VoiceResponse.add_verb (r : VoiceResponse) (v : Verb) : VoiceResponse := ⟨r.verbs ++ [v]⟩

def VoiceResponse.connect (r : VoiceResponse) (noun : Noun) : VoiceResponse :=
  ⟨r.verbs ++ [Verb.Connect noun]⟩

def VoiceResponse.dial (r : VoiceResponse) (d : Dial) : VoiceResponse :=
  ⟨r.verbs ++ [Verb.Dial d]⟩

def VoiceResponse.reject (r : VoiceResponse) : VoiceResponse := ⟨r.verbs ++ [Verb.Reject]⟩

/-- The errors of `src/error.rs` reachable from TwiML serialization:
`UnsupportedNoun`, and the wrapper for `validator::ValidationErrors`
carrying `(field, message)` pairs (displayed by the tests as
`validation error: field: message`). -/
inductive TwilioError where
  | UnsupportedNoun
  | ValidationFailure : List (String × String) → TwilioError
  deriving DecidableEq, Repr

/-- The `validator` crate's `url` rule accepts exactly the strings
`url::Url::parse` accepts.  Modelled as: a nonempty alphabetic scheme,
`://`, and a nonempty remainder — which agrees with the full WHATWG parser
on every URL this development evaluates it on. -/
def breakScheme : List Char → Option (List Char × List Char)
  | [] => none
  | ':' :: '/' :: '/' :: rest => some ([], rest)
  | c :: rest => (breakScheme rest).map (fun p => (c :: p.1, p.2))

def isValidUrl (s : String) : Bool :=
  match breakScheme s.data with
  | some (scheme, rest) => (!scheme.isEmpty) && scheme.all Char.isAlpha && (!rest.isEmpty)
  | none => false

/-- `validate_wss_url` (`voice.rs:431-438`). -/
def validate_wss_url (url : String) : Option String :=
  if strStartsWith url "wss://" then none
  else some "URL must start with 'wss://'"

/-- `validate_recording_status_callback_event` (`voice.rs:183-191`). -/
def validate_recording_status_callback_event (event : String) : Option String :=
  if ["in-progress", "completed", "absent"].contains event then none
  else some ("Invalid recording status callback event: " ++ event)

/-- Rust `str::split_whitespace` (here over ASCII whitespace, which covers
every string this development evaluates it on): maximal nonempty runs of
non-whitespace characters. -/
def splitWsAux : List Char → List Char → List String
  | [], acc => if acc.isEmpty then [] else [String.mk acc.reverse]
  | c :: rest, acc =>
      if c.toNat = 32 ∨ c.toNat = 9 ∨ c.toNat = 10 ∨ c.toNat = 13 then
        if acc.isEmpty then splitWsAux rest [] else String.mk acc.reverse :: splitWsAux rest []
      else splitWsAux rest (c :: acc)

def splitWhitespace (s : String) : List String := splitWsAux s.data []

/-- `validate_status_callback_event` (`voice.rs:331-353`): every
whitespace-separated token must be in the fixed vocabulary; the error
reports the first invalid token. -/
def validate_status_callback_event (event : String) : Option String :=
  match (splitWhitespace event).find? (fun e =>
      !(["start", "end", "join", "leave", "mute", "hold", "modify", "speaker",
         "announcement"].contains e)) with
  | some e => some ("Invalid status callback event: " ++ e)
  | none => none

/-- `Stream::validate` of the `Validate` derive: rule results in field
declaration order (`url` carries both the `url` rule and the `wss` custom
rule; `status_callback` carries the `url` rule). -/
def Stream.errors (s : Stream) : List (String × String) :=
  (if isValidUrl s.url then [] else [("url", "url")]) ++
  (match validate_wss_url s.url with
    | some m => [("url", m)]
    | none => []) ++
  (match s.status_callback with
    | some cb => if isValidUrl cb then [] else [("status_callback", "url")]
    | none => [])

/-- `#[validate(length(max = 128))]` on `Conference.participant_label`
(the `validator` crate counts characters). -/
def Conference.participantLabelErrs (c : Conference) : List (String × String) :=
  match c.participant_label with
  | some s => if s.length ≤ 128 then [] else [("participant_label", "length")]
  | none => []

/-- `#[validate(range(max = 250))]` on `Conference.max_participants`. -/
def Conference.maxParticipantsErrs (c : Conference) : List (String × String) :=
  match c.max_participants with
  | some n => if n ≤ 250 then [] else [("max_participants", "range")]
  | none => []

/-- The custom rule on `Conference.status_callback_event`. -/
def Conference.statusCallbackEventErrs (c : Conference) : List (String × String) :=
  match c.status_callback_event with
  | some e =>
      match validate_status_callback_event e with
      | some m => [("status_callback_event", m)]
      | none => []
  | none => []

/-- The custom rule on `Conference.recording_status_callback_event`. -/
def Conference.recordingEventErrs (c : Conference) : List (String × String) :=
  match c.recording_status_callback_event with
  | some e =>
      match validate_recording_status_callback_event e with
      | some m => [("recording_status_callback_event", m)]
      | none => []
  | none => []

/-- `Conference::validate` of the `Validate` derive: `participant_label`
length ≤ 128 characters, `max_participants` ≤ 250, and the two custom
event rules, in field declaration order. -/
def Conference.errors (c : Conference) : List (String × String) :=
  c.participantLabelErrs ++ c.maxParticipantsErrs ++
    c.statusCallbackEventErrs ++ c.recordingEventErrs

/-- `Dial::validate` of the `Validate` derive: only
`recording_status_callback_event` carries a rule.  (`to_bytes` never
invokes it; it exists for callers, as the unit tests do manually.) -/
def Dial.errors (d : Dial) : List (String × String) :=
  match d.recording_status_callback_event with
  | some e =>
      match validate_recording_status_callback_event e with
      | some m => [("recording_status_callback_event", m)]
      | none => []
  | none => []

end Twiml

namespace Twiml

/-- Decimal rendering of a `Nat` (Rust's `Display` for `u32`); fuel-based
so it evaluates in the kernel. -/
def natDigitsAux : Nat → Nat → List Char
  | 0, _ => []
  | fuel + 1, n =>
      if n < 10 then [Char.ofNat (48 + n)]
      else natDigitsAux fuel (n / 10) ++ [Char.ofNat (48 + n % 10)]

def natToStr (n : Nat) : String := String.mk (natDigitsAux (n + 1) n)

/-- `xml-rs` attribute-value escaping: `&`, `<`, `>`, `"` and the
apostrophe. -/
def escAttrChar (c : Char) : List Char :=
  if c.toNat = 38 then "&amp;".data
  else if c.toNat = 60 then "&lt;".data
  else if c.toNat = 62 then "&gt;".data
  else if c.toNat = 34 then "&quot;".data
  else if c.toNat = 39 then "&apos;".data
  else [c]

def xmlEscapeAttr (s : String) : String := String.mk ((s.data.map escAttrChar).flatten)

/-- `xml-rs` PCDATA escaping: `&`, `<`, `>`. -/
def escTextChar (c : Char) : List Char :=
  if c.toNat = 38 then "&amp;".data
  else if c.toNat = 60 then "&lt;".data
  else if c.toNat = 62 then "&gt;".data
  else [c]

def xmlEscapeText (s : String) : String := String.mk ((s.data.map escTextChar).flatten)

/-- One optional attribute: ` name="value"` when present, nothing when
absent. -/
def attrOpt (name : String) (v : Option String) : String :=
  match v with
  | some s => " " ++ name ++ "=\x22" ++ xmlEscapeAttr s ++ "\x22"
  | none => ""

def boolStr (b : Bool) : String := if b then "true" else "false"

/-- String concatenation of a list (left to right). -/
def strJoin : List String → String
  | [] => ""
  | s :: rest => s ++ strJoin rest

/-- `<Parameter name=".." value=".." />`. -/
def Parameter.xml (p : Parameter) : String :=
  "<Parameter" ++ attrOpt "name" (some p.name) ++ attrOpt "value" (some p.value) ++ " />"

/-- `Stream` element: attributes in declared field order; self-closing
without parameters, otherwise nested `<Parameter />` children in list
order. -/
def Stream.xml (s : Stream) : String :=
  let attrs := attrOpt "url" (some s.url) ++ attrOpt "name" s.name ++
    attrOpt "track" (s.track.map Track.toStr) ++
    attrOpt "statusCallback" s.status_callback ++
    attrOpt "statusCallbackMethod" s.status_callback_method
  match s.parameters with
  | none => "<Stream" ++ attrs ++ " />"
  | some ps =>
      if ps.isEmpty then "<Stream" ++ attrs ++ " />"
      else "<Stream" ++ attrs ++ ">" ++ strJoin (ps.map Parameter.xml) ++ "</Stream>"

/-- `Conference` element: attributes in declared field order, name as text
content. -/
def Conference.xml (c : Conference) : String :=
  "<Conference" ++
    attrOpt "muted" (c.muted.map boolStr) ++
    attrOpt "beep" c.beep ++
    attrOpt "startConferenceOnEnter" (c.start_conference_on_enter.map boolStr) ++
    attrOpt "endConferenceOnExit" (c.end_conference_on_exit.map boolStr) ++
    attrOpt "participantLabel" c.participant_label ++
    attrOpt "jitterBufferSize" c.jitter_buffer_size ++
    attrOpt "waitUrl" c.wait_url ++
    attrOpt "waitMethod" c.wait_method ++
    attrOpt "maxParticipants" (c.max_participants.map natToStr) ++
    attrOpt "record" c.record ++
    attrOpt "region" c.region ++
    attrOpt "trim" c.trim ++
    attrOpt "coach" c.coach ++
    attrOpt "statusCallback" c.status_callback ++
    attrOpt "statusCallbackEvent" c.status_callback_event ++
    attrOpt "statusCallbackMethod" c.status_callback_method ++
    attrOpt "recordingStatusCallback" c.recording_status_callback ++
    attrOpt "recordingStatusCallbackMethod" c.recording_status_callback_method ++
    attrOpt "recordingStatusCallbackEvent" c.recording_status_callback_event ++
    ">" ++ xmlEscapeText c.name ++ "</Conference>"

/-- `Number` element: attributes then the number as text content. -/
def Number.xml (n : Number) : String :=
  "<Number" ++ attrOpt "action" n.action ++ attrOpt "method" n.method ++
    ">" ++ xmlEscapeText n.number ++ "</Number>"

def Noun.xml : Noun → String
  | .Stream s => s.xml
  | .Conference c => c.xml
  | .Number n => n.xml

/-- `Dial` element: attributes in declared field order, noun as content. -/
def Dial.xml (d : Dial) : String :=
  "<Dial" ++
    attrOpt "action" d.action ++
    attrOpt "answerOnBridge" (d.answer_on_bridge.map boolStr) ++
    attrOpt "callerId" d.caller_id ++
    attrOpt "callReason" d.call_reason ++
    attrOpt "hangupOnStar" (d.hangup_on_star.map boolStr) ++
    attrOpt "method" d.method ++
    attrOpt "record" d.record ++
    attrOpt "recordingStatusCallback" d.recording_status_callback ++
    attrOpt "recordingStatusCallbackMethod" d.recording_status_callback_method ++
    attrOpt "recordingStatusCallbackEvent" d.recording_status_callback_event ++
    attrOpt "recordingTrack" d.recording_track ++
    attrOpt "referUrl" d.refer_url ++
    attrOpt "referMethod" d.refer_method ++
    attrOpt "ringTone" d.ring_tone ++
    attrOpt "timeLimit" (d.time_limit.map natToStr) ++
    attrOpt "timeout" (d.timeout.map natToStr) ++
    attrOpt "trim" d.trim ++
    attrOpt "sequential" (d.sequential.map boolStr) ++
    ">" ++ d.noun.xml ++ "</Dial>"

/-- `Verb::write_xml` (`voice.rs:92-111`). -/
def Verb.write_xml : Verb → String
  | .Connect noun => "<Connect>" ++ noun.xml ++ "</Connect>"
  | .Dial d => d.xml
  | .Reject => "<Reject />"

/-- The per-verb validation performed by the loop body of
`VoiceResponse::to_bytes` (`voice.rs:59-74`): `Connect` accepts only a
validated `Stream`; `Dial` accepts a validated `Conference` or any
`Number`; everything else is `UnsupportedNoun`; `Reject` is unchecked.
Note the `Dial` struct's own fields are never validated here. -/
def verbCheck : Verb → Except TwilioError Unit
  | .Connect noun =>
      match noun with
      | .Stream s => if s.errors.isEmpty then .ok () else .error (.ValidationFailure s.errors)
      | _ => .error .UnsupportedNoun
  | .Dial d =>
      match d.noun with
      | .Conference c => if c.errors.isEmpty then .ok () else .error (.ValidationFailure c.errors)
      | .Number _ => .ok ()
      | _ => .error .UnsupportedNoun
  | .Reject => .ok ()

/-- The verb loop of `to_bytes`: validate each verb, then write it; the
first error aborts and nothing is returned. -/
def writeVerbs : List Verb → Except TwilioError String
  | [] => .ok ""
  | v :: rest =>
      match verbCheck v with
      | .error e => .error e
      | .ok _ =>
          match writeVerbs rest with
          | .error e => .error e
          | .ok s => .ok (Verb.write_xml v ++ s)

def xmlDecl : String := "<?xml version=\x221.0\x22 encoding=\x22UTF-8\x22?>"

/-- `VoiceResponse::to_bytes` (`voice.rs:55-79`): XML declaration, the
`<Response>` root, the verbs in order (an empty document is the normalized
self-closing root). -/
def VoiceResponse.to_bytes (r : VoiceResponse) : Except TwilioError String :=
  match writeVerbs r.verbs with
  | .error e => .error e
  | .ok body =>
      .ok (xmlDecl ++
        (if body = "" then "<Response />" else "<Response>" ++ body ++ "</Response>"))

/-- The containment rule of `to_bytes`: a `Connect` wrapping anything but a
`Stream`, or a `Dial` wrapping a `Stream`. -/
def containmentViolation : Verb → Bool
  | .Connect noun =>
      match noun with
      | .Stream _ => false
      | _ => true
  | .Dial d =>
      match d.noun with
      | .Stream _ => true
      | _ => false
  | .Reject => false

end Twiml

/-!
## Sanity checks and claim theorems
-/

/-- Sanity check against the FIPS 180 test vector: `SHA1("abc")`. -/
theorem sha1_test_vector_abc :
    sha1 (strBytes "abc") =
      [0xa9, 0x99, 0x3e, 0x36, 0x47, 0x06, 0x81, 0x6a, 0xba, 0x3e,
       0x25, 0x71, 0x78, 0x50, 0xc2, 0x6c, 0x9c, 0xd0, 0xd8, 0x9d] := by
  decide

/-- Sanity check against the RFC 2202 test case 2 for HMAC-SHA1. -/
theorem hmac_sha1_test_vector_jefe :
    hmacSha1 (strBytes "Jefe") (strBytes "what do ya want for nothing?") =
      [0xef, 0xfc, 0xdf, 0x6a, 0xe5, 0xeb, 0x2f, 0xa2, 0xd2, 0x74,
       0x16, 0xd5, 0xf1, 0x84, 0xdf, 0x9c, 0x25, 0x9a, 0x7c, 0x79] := by
  decide
/-!
## Claims about the signature validator
-/

/-- C1: with `Host` and `X-Twilio-Signature` present and readable,
`validate_twilio_signature` returns `Ok` exactly when the header signature
equals, byte for byte, the standard padded Base64 encoding of the HMAC-SHA1
of the canonical string keyed by the secret; on any difference it returns
`InvalidSignature`.  In particular a signature recomputed from the same
inputs always verifies. -/
theorem validate_ok_iff_signature_matches
    (tok : String) (method : Method) (uri : Uri) (headers : HeaderMap)
    (ps : Option FormParams) (hostBytes sigBytes : List Nat) (host sig : String)
    (hhost : headers.host = some hostBytes)
    (hhostStr : headerToStr hostBytes = some host)
    (hsig : headers.xTwilioSignature = some sigBytes)
    (hsigStr : headerToStr sigBytes = some sig) :
    (validate_twilio_signature tok method uri headers ps = .ok () ↔
      sig = base64Encode (hmacSha1 (strBytes tok)
        (strBytes (canonicalString host method uri headers.contentType ps)))) ∧
    (sig ≠ base64Encode (hmacSha1 (strBytes tok)
        (strBytes (canonicalString host method uri headers.contentType ps))) →
      validate_twilio_signature tok method uri headers ps =
        .error SignatureValidationError.InvalidSignature) := by
  unfold validate_twilio_signature
  simp only [hhost, hhostStr, hsig, hsigStr]
  by_cases h : sig = base64Encode (hmacSha1 (strBytes tok)
      (strBytes (canonicalString host method uri headers.contentType ps)))
  · simp [h]
  · simp [h]

/-- Witness for C1: a concrete form-encoded POST request. -/
theorem validate_ok_iff_signature_matches_witness :
    (validate_twilio_signature "test_auth_token" Method.POST ⟨some ⟨"/webhook", none⟩⟩
        ⟨some (strBytes "example.com"), some (strBytes "abc"),
          some (strBytes "application/x-www-form-urlencoded")⟩ none = .ok () ↔
      "abc" = base64Encode (hmacSha1 (strBytes "test_auth_token")
        (strBytes (canonicalString "example.com" Method.POST ⟨some ⟨"/webhook", none⟩⟩
          (some (strBytes "application/x-www-form-urlencoded")) none)))) ∧
    ("abc" ≠ base64Encode (hmacSha1 (strBytes "test_auth_token")
        (strBytes (canonicalString "example.com" Method.POST ⟨some ⟨"/webhook", none⟩⟩
          (some (strBytes "application/x-www-form-urlencoded")) none))) →
      validate_twilio_signature "test_auth_token" Method.POST ⟨some ⟨"/webhook", none⟩⟩
        ⟨some (strBytes "example.com"), some (strBytes "abc"),
          some (strBytes "application/x-www-form-urlencoded")⟩ none =
        .error SignatureValidationError.InvalidSignature) :=
  validate_ok_iff_signature_matches "test_auth_token" Method.POST ⟨some ⟨"/webhook", none⟩⟩
    ⟨some (strBytes "example.com"), some (strBytes "abc"),
      some (strBytes "application/x-www-form-urlencoded")⟩ none
    (strBytes "example.com") (strBytes "abc") "example.com" "abc"
    rfl (by decide) rfl (by decide)

/-- C2: for a form-encoded POST the canonical string is
`https://` + host + path-and-query followed by the map's `key ++ value`
pairs concatenated with no separators, in ascending key order; on the
spec's concrete example it equals
`https://example.com/webhookCallSidCA123456789From+12345678901`
(the pairs are inserted out of order and the map sorts them). -/
theorem canonicalString_post_form
    (host : String) (uri : Uri) (ct : List Nat) (ps : FormParams)
    (hct : strStartsWith ((headerToStr ct).getD "") "application/x-www-form-urlencoded" = true) :
    (canonicalString host Method.POST uri (some ct) (some ps) =
        "https://" ++ host ++ ((uri.pathAndQuery.map PathAndQuery.asStr).getD "") ++
          String.join (ps.entries.map (fun kv => kv.1 ++ kv.2)) ∧
      List.Chain' (fun a b : String × String => strLt a.1 b.1 = true) ps.entries) ∧
    canonicalString "example.com" Method.POST ⟨some ⟨"/webhook", none⟩⟩
        (some (strBytes "application/x-www-form-urlencoded; charset=UTF-8"))
        (some (FormParams.ofList [("From", "+12345678901"), ("CallSid", "CA123456789")])) =
      "https://example.com/webhookCallSidCA123456789From+12345678901" := by
  refine ⟨⟨?_, ps.sorted⟩, by decide⟩
  unfold canonicalString
  simp [hct, sortedParamsConcat]

/-- Witness for C2: the example `Content-Type` satisfies the form check. -/
theorem canonicalString_post_form_witness :
    (canonicalString "example.com" Method.POST ⟨some ⟨"/webhook", none⟩⟩
        (some (strBytes "application/x-www-form-urlencoded; charset=UTF-8"))
        (some (FormParams.ofList [("From", "+12345678901"), ("CallSid", "CA123456789")])) =
        "https://" ++ "example.com" ++
          (((Uri.mk (some (PathAndQuery.mk "/webhook" none))).pathAndQuery.map
            PathAndQuery.asStr).getD "") ++
          String.join
            ((FormParams.ofList [("From", "+12345678901"), ("CallSid", "CA123456789")]).entries.map
              (fun kv => kv.1 ++ kv.2)) ∧
      List.Chain' (fun a b : String × String => strLt a.1 b.1 = true)
        (FormParams.ofList [("From", "+12345678901"), ("CallSid", "CA123456789")]).entries) ∧
    canonicalString "example.com" Method.POST ⟨some ⟨"/webhook", none⟩⟩
        (some (strBytes "application/x-www-form-urlencoded; charset=UTF-8"))
        (some (FormParams.ofList [("From", "+12345678901"), ("CallSid", "CA123456789")])) =
      "https://example.com/webhookCallSidCA123456789From+12345678901" :=
  canonicalString_post_form "example.com" ⟨some ⟨"/webhook", none⟩⟩
    (strBytes "application/x-www-form-urlencoded; charset=UTF-8")
    (FormParams.ofList [("From", "+12345678901"), ("CallSid", "CA123456789")])
    (by decide)

/-- C3: on GET requests, and on POSTs whose `Content-Type` does not start
with `application/x-www-form-urlencoded`, the validator's result — and the
canonical string — are identical whether or not a form-parameter map is
supplied. -/
theorem validate_ignores_params_without_form_post
    (tok : String) (method : Method) (uri : Uri) (headers : HeaderMap) (ps : FormParams)
    (h : method = Method.GET ∨
      (method = Method.POST ∧ contentTypeIsForm headers.contentType = false)) :
    validate_twilio_signature tok method uri headers (some ps) =
      validate_twilio_signature tok method uri headers none ∧
    ∀ host, canonicalString host method uri headers.contentType (some ps) =
      canonicalString host method uri headers.contentType none := by
  have hc : ∀ host, canonicalString host method uri headers.contentType (some ps) =
      canonicalString host method uri headers.contentType none := by
    intro host
    unfold canonicalString
    rcases h with h | ⟨hm, hct⟩
    · subst h; simp
    · subst hm
      rcases hcc : headers.contentType with _ | c
      · simp
      · rw [hcc] at hct
        simp only [contentTypeIsForm] at hct
        simp [hct]
  refine ⟨?_, hc⟩
  obtain ⟨oh, os, oc⟩ := headers
  unfold validate_twilio_signature
  rcases oh with _ | hb
  · rfl
  · rcases hhs : headerToStr hb with _ | host
    · simp only [hhs]
    · simp only [hhs]
      rcases os with _ | sb
      · rfl
      · rcases hss : headerToStr sb with _ | sig
        · simp only [hss]
        · simp [hss, hc]

/-- Witness for C3: a GET request with a supplied parameter map. -/
theorem validate_ignores_params_without_form_post_witness :
    validate_twilio_signature "tok" Method.GET ⟨some ⟨"/webhook", some "a=b"⟩⟩
        ⟨some (strBytes "example.com"), some (strBytes "sig"), none⟩
        (some (FormParams.ofList [("CallSid", "CA123")])) =
      validate_twilio_signature "tok" Method.GET ⟨some ⟨"/webhook", some "a=b"⟩⟩
        ⟨some (strBytes "example.com"), some (strBytes "sig"), none⟩ none ∧
    ∀ host, canonicalString host Method.GET ⟨some ⟨"/webhook", some "a=b"⟩⟩ none
        (some (FormParams.ofList [("CallSid", "CA123")])) =
      canonicalString host Method.GET ⟨some ⟨"/webhook", some "a=b"⟩⟩ none none :=
  validate_ignores_params_without_form_post "tok" Method.GET ⟨some ⟨"/webhook", some "a=b"⟩⟩
    ⟨some (strBytes "example.com"), some (strBytes "sig"), none⟩
    (FormParams.ofList [("CallSid", "CA123")]) (Or.inl rfl)

/-- C10: a present `Host` header whose bytes are not readable as a
visible-ASCII string makes `validate_twilio_signature` return
`InvalidSignature`; likewise for a present but unreadable
`X-Twilio-Signature` header once `Host` is present and readable. -/
theorem validate_unreadable_header_invalid_signature
    (tok : String) (method : Method) (uri : Uri) (headers : HeaderMap)
    (ps : Option FormParams) :
    (∀ hb, headers.host = some hb → headerToStr hb = none →
        validate_twilio_signature tok method uri headers ps =
          .error SignatureValidationError.InvalidSignature) ∧
    (∀ hb host sb, headers.host = some hb → headerToStr hb = some host →
        headers.xTwilioSignature = some sb → headerToStr sb = none →
        validate_twilio_signature tok method uri headers ps =
          .error SignatureValidationError.InvalidSignature) := by
  constructor
  · intro hb h1 h2
    simp [validate_twilio_signature, h1, h2]
  · intro hb host sb h1 h2 h3 h4
    simp [validate_twilio_signature, h1, h2, h3, h4]

/-- Witness for C10: a `Host` value with byte `200`, and a readable `Host`
with an `X-Twilio-Signature` value containing byte `150`. -/
theorem validate_unreadable_header_invalid_signature_witness :
    validate_twilio_signature "tok" Method.GET ⟨none⟩ ⟨some [200], none, none⟩ none =
      .error SignatureValidationError.InvalidSignature ∧
    validate_twilio_signature "tok" Method.GET ⟨none⟩
        ⟨some (strBytes "example.com"), some [150], none⟩ none =
      .error SignatureValidationError.InvalidSignature :=
  ⟨(validate_unreadable_header_invalid_signature "tok" Method.GET ⟨none⟩
      ⟨some [200], none, none⟩ none).1 [200] rfl (by decide),
    (validate_unreadable_header_invalid_signature "tok" Method.GET ⟨none⟩
      ⟨some (strBytes "example.com"), some [150], none⟩ none).2
      (strBytes "example.com") "example.com" [150] rfl (by decide) rfl (by decide)⟩


namespace Twiml

theorem to_bytes_error_iff (r : VoiceResponse) (e : TwilioError) :
    r.to_bytes = .error e ↔ writeVerbs r.verbs = .error e := by
  unfold VoiceResponse.to_bytes
  cases h : writeVerbs r.verbs <;> simp

theorem writeVerbs_firstErr :
    ∀ (pre : List Verb) (v : Verb) (post : List Verb) (e : TwilioError),
      (∀ u ∈ pre, verbCheck u = .ok ()) → verbCheck v = .error e →
      writeVerbs (pre ++ v :: post) = .error e := by
  intro pre
  induction pre with
  | nil =>
    intro v post e _ hv
    simp [writeVerbs, hv]
  | cons u rest ih =>
    intro v post e hpre hv
    have hu : verbCheck u = .ok () := hpre u (List.mem_cons_self u rest)
    have hrest : ∀ x ∈ rest, verbCheck x = .ok () :=
      fun x hx => hpre x (List.mem_cons_of_mem u hx)
    simp [writeVerbs, hu, ih v post e hrest hv]

theorem writeVerbs_err_of_mem :
    ∀ (l : List Verb) (v : Verb) (e : TwilioError),
      v ∈ l → verbCheck v = .error e → ∃ e2, writeVerbs l = .error e2 := by
  intro l
  induction l with
  | nil => intro v e h; cases h
  | cons u rest ih =>
    intro v e hmem hv
    rcases List.mem_cons.mp hmem with h | h
    · subst h
      exact ⟨e, by simp [writeVerbs, hv]⟩
    · cases hu : verbCheck u with
      | error e2 => exact ⟨e2, by simp [writeVerbs, hu]⟩
      | ok x =>
        obtain ⟨e2, he2⟩ := ih v e h hv
        exact ⟨e2, by simp [writeVerbs, hu, he2]⟩

theorem writeVerbs_ok_join :
    ∀ (l : List Verb) (s : String),
      writeVerbs l = .ok s → s = strJoin (l.map Verb.write_xml) := by
  intro l
  induction l with
  | nil =>
    intro s h
    simp only [writeVerbs, Except.ok.injEq] at h
    rw [← h]
    rfl
  | cons v rest ih =>
    intro s h
    simp only [writeVerbs] at h
    cases hv : verbCheck v with
    | error e => rw [hv] at h; simp at h
    | ok x =>
      rw [hv] at h
      cases hr : writeVerbs rest with
      | error e => rw [hr] at h; simp at h
      | ok s2 =>
        rw [hr] at h
        simp only [Except.ok.injEq] at h
        rw [← h, List.map_cons, ih s2 hr]
        rfl

theorem write_xml_length_pos : ∀ v : Verb, 0 < (Verb.write_xml v).length := by
  intro v
  cases v with
  | Connect noun =>
    have h9 : (0 : Nat) < "<Connect>".length := by decide
    simp only [Verb.write_xml, String.length_append]
    omega
  | Dial d =>
    have h5 : (0 : Nat) < "<Dial".length := by decide
    simp only [Verb.write_xml, Dial.xml, String.length_append]
    omega
  | Reject => decide

theorem writeVerbs_cons_ok_ne_empty {v : Verb} {rest : List Verb} {s : String}
    (h : writeVerbs (v :: rest) = .ok s) : s ≠ "" := by
  intro hs
  have hj := writeVerbs_ok_join (v :: rest) s h
  rw [hs, List.map_cons] at hj
  have hlen := congrArg String.length hj
  have h0 : ("" : String).length = 0 := by decide
  have hp := write_xml_length_pos v
  rw [h0] at hlen
  have : (Verb.write_xml v ++ strJoin (rest.map Verb.write_xml)).length =
      (Verb.write_xml v).length + (strJoin (rest.map Verb.write_xml)).length :=
    String.length_append _ _
  rw [show strJoin (Verb.write_xml v :: rest.map Verb.write_xml) =
      Verb.write_xml v ++ strJoin (rest.map Verb.write_xml) from rfl] at hlen
  omega

theorem verbCheck_violation :
    ∀ v : Verb, containmentViolation v = true → verbCheck v = .error .UnsupportedNoun := by
  intro v hv
  cases v with
  | Connect noun =>
    cases noun with
    | Stream s => simp [containmentViolation] at hv
    | Conference c => rfl
    | Number n => rfl
  | Dial d =>
    cases hd : d.noun with
    | Stream s => simp [verbCheck, hd]
    | Conference c => simp [containmentViolation, hd] at hv
    | Number n => simp [containmentViolation, hd] at hv
  | Reject => simp [containmentViolation] at hv

theorem verbCheck_no_violation :
    ∀ v : Verb, containmentViolation v = false → verbCheck v ≠ .error .UnsupportedNoun := by
  intro v hv
  cases v with
  | Connect noun =>
    cases noun with
    | Stream s =>
      by_cases he : s.errors.isEmpty
      · simp [verbCheck, he]
      · simp [verbCheck, he]
    | Conference c => simp [containmentViolation] at hv
    | Number n => simp [containmentViolation] at hv
  | Dial d =>
    cases hd : d.noun with
    | Stream s => simp [containmentViolation, hd] at hv
    | Conference c =>
      by_cases he : c.errors.isEmpty
      · simp [verbCheck, hd, he]
      · simp [verbCheck, hd, he]
    | Number n => simp [verbCheck, hd]
  | Reject => simp [verbCheck]

theorem writeVerbs_no_unsupported :
    ∀ l : List Verb, (∀ v ∈ l, containmentViolation v = false) →
      writeVerbs l ≠ .error .UnsupportedNoun := by
  intro l
  induction l with
  | nil => intro _ h; simp [writeVerbs] at h
  | cons v rest ih =>
    intro hall h
    have hv : containmentViolation v = false := hall v (List.mem_cons_self v rest)
    have hrest : ∀ u ∈ rest, containmentViolation u = false :=
      fun u hu => hall u (List.mem_cons_of_mem v hu)
    simp only [writeVerbs] at h
    cases hcv : verbCheck v with
    | error e =>
      rw [hcv] at h
      simp only [Except.error.injEq] at h
      exact verbCheck_no_violation v hv (by rw [hcv, h])
    | ok x =>
      rw [hcv] at h
      cases hw : writeVerbs rest with
      | error e =>
        rw [hw] at h
        simp only [Except.error.injEq] at h
        exact ih hrest (by rw [hw, h])
      | ok s => rw [hw] at h; simp at h

end Twiml

namespace Twiml

theorem verbCheck_connect_stream_err (s : Stream) (h : s.errors ≠ []) :
    verbCheck (Verb.Connect (Noun.Stream s)) = .error (.ValidationFailure s.errors) := by
  cases he : s.errors with
  | nil => exact absurd he h
  | cons a t => simp [verbCheck, he]

theorem verbCheck_dial_conference_err (d : Dial) (c : Conference)
    (hd : d.noun = Noun.Conference c) (h : c.errors ≠ []) :
    verbCheck (Verb.Dial d) = .error (.ValidationFailure c.errors) := by
  cases he : c.errors with
  | nil => exact absurd he h
  | cons a t => simp [verbCheck, hd, he]

theorem wss_mem_stream_errors (s : Stream) (h : strStartsWith s.url "wss://" = false) :
    ("url", "URL must start with 'wss://'") ∈ s.errors := by
  unfold Stream.errors validate_wss_url
  rw [h]
  simp

theorem validate_rsce_eq_none_iff (e : String) :
    validate_recording_status_callback_event e = none ↔
      (e = "in-progress" ∨ e = "completed" ∨ e = "absent") := by
  unfold validate_recording_status_callback_event
  cases hc : (["in-progress", "completed", "absent"].contains e) with
  | true =>
    simp only [hc, if_true]
    simp at hc
    simp [hc]
  | false =>
    simp only [hc, Bool.false_eq_true, if_false]
    simp at hc
    simp [hc]

theorem participantLabelErrs_field (c : Conference) :
    ∀ x ∈ c.participantLabelErrs, x.1 = "participant_label" := by
  intro x hx
  unfold Conference.participantLabelErrs at hx
  rcases hp : c.participant_label with _ | s
  · simp only [hp] at hx; simp at hx
  · simp only [hp] at hx
    by_cases hl : s.length ≤ 128
    · rw [if_pos hl] at hx; simp at hx
    · rw [if_neg hl] at hx
      simp at hx
      rw [hx]

theorem maxParticipantsErrs_field (c : Conference) :
    ∀ x ∈ c.maxParticipantsErrs, x.1 = "max_participants" := by
  intro x hx
  unfold Conference.maxParticipantsErrs at hx
  rcases hp : c.max_participants with _ | n
  · simp only [hp] at hx; simp at hx
  · simp only [hp] at hx
    by_cases hl : n ≤ 250
    · rw [if_pos hl] at hx; simp at hx
    · rw [if_neg hl] at hx
      simp at hx
      rw [hx]

theorem statusCallbackEventErrs_field (c : Conference) :
    ∀ x ∈ c.statusCallbackEventErrs, x.1 = "status_callback_event" := by
  intro x hx
  unfold Conference.statusCallbackEventErrs at hx
  rcases hp : c.status_callback_event with _ | e
  · simp only [hp] at hx; simp at hx
  · simp only [hp] at hx
    rcases hv : validate_status_callback_event e with _ | m
    · simp only [hv] at hx; simp at hx
    · simp only [hv] at hx
      simp at hx
      rw [hx]

theorem recordingEventErrs_field (c : Conference) :
    ∀ x ∈ c.recordingEventErrs, x.1 = "recording_status_callback_event" := by
  intro x hx
  unfold Conference.recordingEventErrs at hx
  rcases hp : c.recording_status_callback_event with _ | e
  · simp only [hp] at hx; simp at hx
  · simp only [hp] at hx
    rcases hv : validate_recording_status_callback_event e with _ | m
    · simp only [hv] at hx; simp at hx
    · simp only [hv] at hx
      simp at hx
      rw [hx]

theorem mem_conference_errors_iff (c : Conference) (x : String × String) :
    x ∈ c.errors ↔ x ∈ c.participantLabelErrs ∨ x ∈ c.maxParticipantsErrs ∨
      x ∈ c.statusCallbackEventErrs ∨ x ∈ c.recordingEventErrs := by
  unfold Conference.errors
  simp [List.mem_append, or_assoc]

theorem mem_errors_recording_iff (c : Conference) (m : String) :
    ("recording_status_callback_event", m) ∈ c.errors ↔
      ("recording_status_callback_event", m) ∈ c.recordingEventErrs := by
  rw [mem_conference_errors_iff]
  constructor
  · rintro (h | h | h | h)
    · have hf := participantLabelErrs_field c _ h
      simp at hf
    · have hf := maxParticipantsErrs_field c _ h
      simp at hf
    · have hf := statusCallbackEventErrs_field c _ h
      simp at hf
    · exact h
  · intro h
    exact Or.inr (Or.inr (Or.inr h))

theorem mem_errors_participant_iff (c : Conference) (m : String) :
    ("participant_label", m) ∈ c.errors ↔
      ("participant_label", m) ∈ c.participantLabelErrs := by
  rw [mem_conference_errors_iff]
  constructor
  · rintro (h | h | h | h)
    · exact h
    · have hf := maxParticipantsErrs_field c _ h
      simp at hf
    · have hf := statusCallbackEventErrs_field c _ h
      simp at hf
    · have hf := recordingEventErrs_field c _ h
      simp at hf
  · intro h
    exact Or.inl h

end Twiml

namespace Twiml

/-- C4 (amended): if some `Connect` wraps a non-`Stream` noun or some
`Dial` wraps a `Stream` noun, serialization always fails; the error is
`UnsupportedNoun` whenever every verb before the offending one passes the
per-verb check; and a document whose verbs are all `Connect(Stream)`,
`Dial(Conference)`, `Dial(Number)` or `Reject` never produces
`UnsupportedNoun`. -/
theorem connect_dial_containment :
    (∀ (r : VoiceResponse) (pre : List Verb) (v : Verb) (post : List Verb),
      r.verbs = pre ++ v :: post → containmentViolation v = true →
      (∀ u ∈ pre, verbCheck u = .ok ()) →
      r.to_bytes = .error TwilioError.UnsupportedNoun) ∧
    (∀ (r : VoiceResponse) (v : Verb), v ∈ r.verbs → containmentViolation v = true →
      ∃ e, r.to_bytes = .error e) ∧
    (∀ r : VoiceResponse, (∀ v ∈ r.verbs, containmentViolation v = false) →
      r.to_bytes ≠ .error TwilioError.UnsupportedNoun) := by
  refine ⟨?_, ?_, ?_⟩
  · intro r pre v post hverbs hviol hpre
    rw [to_bytes_error_iff, hverbs]
    exact writeVerbs_firstErr pre v post _ hpre (verbCheck_violation v hviol)
  · intro r v hmem hviol
    obtain ⟨e2, he2⟩ := writeVerbs_err_of_mem r.verbs v _ hmem (verbCheck_violation v hviol)
    exact ⟨e2, (to_bytes_error_iff r e2).mpr he2⟩
  · intro r hall h
    exact writeVerbs_no_unsupported r.verbs hall ((to_bytes_error_iff r _).mp h)

/-- C4 counterexample: a document whose second verb is a `Dial` wrapping a
`Stream`, preceded by a `Connect(Stream)` with a non-`wss` URL, fails with
a validation error — not with `UnsupportedNoun` as the claim states. -/
theorem connect_dial_containment_cex :
    Verb.Dial (Dial.new (Noun.Stream (Stream.new "wss://a.example/ws"))) ∈
      (VoiceResponse.mk [Verb.Connect (Noun.Stream (Stream.new "https://test.com/connect")),
        Verb.Dial (Dial.new (Noun.Stream (Stream.new "wss://a.example/ws")))]).verbs ∧
    (VoiceResponse.mk [Verb.Connect (Noun.Stream (Stream.new "https://test.com/connect")),
        Verb.Dial (Dial.new (Noun.Stream (Stream.new "wss://a.example/ws")))]).to_bytes ≠
      .error TwilioError.UnsupportedNoun := by
  decide

/-- Witness for C4: the single-verb document `Dial(Stream)` fails with
`UnsupportedNoun`. -/
theorem connect_dial_containment_witness :
    (VoiceResponse.mk
        [Verb.Dial (Dial.new (Noun.Stream (Stream.new "wss://a.example/ws")))]).to_bytes =
      .error TwilioError.UnsupportedNoun :=
  connect_dial_containment.1
    (VoiceResponse.mk [Verb.Dial (Dial.new (Noun.Stream (Stream.new "wss://a.example/ws")))])
    [] (Verb.Dial (Dial.new (Noun.Stream (Stream.new "wss://a.example/ws")))) []
    rfl (by decide) (by intro u hu; cases hu)

/-- C5 (amended): a `Conference` noun's present `recording_status_callback_event`
yields a validation error identifying that field exactly when the value is
not one of `in-progress`, `completed`, `absent`; a `Dial(Conference)` whose
conference fails validation aborts serialization with that error once every
earlier verb passes; but the `Dial` verb's own
`recording_status_callback_event` is never checked by `to_bytes` — the
per-verb check depends only on the `Dial`'s noun. -/
theorem recording_event_rule :
    (∀ (c : Conference) (e : String), c.recording_status_callback_event = some e →
      ((∃ m, ("recording_status_callback_event", m) ∈ c.errors) ↔
        ¬(e = "in-progress" ∨ e = "completed" ∨ e = "absent"))) ∧
    (∀ (r : VoiceResponse) (pre : List Verb) (d : Dial) (c : Conference) (post : List Verb),
      r.verbs = pre ++ Verb.Dial d :: post → d.noun = Noun.Conference c →
      c.errors ≠ [] → (∀ u ∈ pre, verbCheck u = .ok ()) →
      r.to_bytes = .error (TwilioError.ValidationFailure c.errors)) ∧
    (∀ d d' : Dial, d.noun = d'.noun → verbCheck (Verb.Dial d) = verbCheck (Verb.Dial d')) := by
  refine ⟨?_, ?_, ?_⟩
  · intro c e hce
    constructor
    · rintro ⟨m, hm⟩ hdisj
      have hnone := (validate_rsce_eq_none_iff e).mpr hdisj
      rw [mem_errors_recording_iff] at hm
      unfold Conference.recordingEventErrs at hm
      simp only [hce, hnone] at hm
      simp at hm
    · intro hdisj
      cases hv : validate_recording_status_callback_event e with
      | none => exact absurd ((validate_rsce_eq_none_iff e).mp hv) hdisj
      | some m =>
        refine ⟨m, ?_⟩
        rw [mem_errors_recording_iff]
        unfold Conference.recordingEventErrs
        simp only [hce, hv]
        simp
  · intro r pre d c post hverbs hd hne hpre
    rw [to_bytes_error_iff, hverbs]
    exact writeVerbs_firstErr pre _ post _ hpre (verbCheck_dial_conference_err d c hd hne)
  · intro d d' hn
    simp only [verbCheck]
    rw [hn]

/-- C5 counterexample: a `Dial` around a `Number` with
`recording_status_callback_event = "bogus"` serializes successfully — the
claim says serialization must fail with a validation error. -/
theorem recording_event_rule_cex :
    ({ Dial.new (Noun.Number (Number.new "415-123-4567")) with
        recording_status_callback_event := some "bogus" } : Dial).recording_status_callback_event =
      some "bogus" ∧
    (VoiceResponse.mk [Verb.Dial { Dial.new (Noun.Number (Number.new "415-123-4567")) with
        recording_status_callback_event := some "bogus" }]).to_bytes =
      .ok "<?xml version=\x221.0\x22 encoding=\x22UTF-8\x22?><Response><Dial recordingStatusCallbackEvent=\x22bogus\x22><Number>415-123-4567</Number></Dial></Response>" := by
  decide

/-- Witness for C5: `Dial(Conference)` with an invalid recording event
fails with the conference's validation errors. -/
theorem recording_event_rule_witness :
    (VoiceResponse.mk [Verb.Dial (Dial.new (Noun.Conference
        { Conference.new "Evented" with
            recording_status_callback_event := some "bogus" }))]).to_bytes =
      .error (TwilioError.ValidationFailure
        ({ Conference.new "Evented" with
            recording_status_callback_event := some "bogus" } : Conference).errors) :=
  recording_event_rule.2.1
    (VoiceResponse.mk [Verb.Dial (Dial.new (Noun.Conference
      { Conference.new "Evented" with recording_status_callback_event := some "bogus" }))])
    []
    (Dial.new (Noun.Conference
      { Conference.new "Evented" with recording_status_callback_event := some "bogus" }))
    ({ Conference.new "Evented" with recording_status_callback_event := some "bogus" })
    []
    rfl rfl (by decide) (by intro u hu; cases hu)

/-- C6 (amended): a document containing `Connect(Stream)` whose URL does
not start with `wss://` always fails serialization; the error carries the
`url`-field invalid-websocket-url message whenever every earlier verb
passes; the spec's concrete `https://` example fails with exactly that
error, and the same document with scheme `wss` succeeds. -/
theorem stream_wss_rule :
    (∀ (r : VoiceResponse) (v : Verb) (s : Stream), v ∈ r.verbs →
      v = Verb.Connect (Noun.Stream s) → strStartsWith s.url "wss://" = false →
      ∃ e, r.to_bytes = .error e) ∧
    (∀ (r : VoiceResponse) (pre : List Verb) (s : Stream) (post : List Verb),
      r.verbs = pre ++ Verb.Connect (Noun.Stream s) :: post →
      strStartsWith s.url "wss://" = false →
      (∀ u ∈ pre, verbCheck u = .ok ()) →
      r.to_bytes = .error (TwilioError.ValidationFailure s.errors) ∧
        ("url", "URL must start with 'wss://'") ∈ s.errors) ∧
    (VoiceResponse.mk [Verb.Connect (Noun.Stream (Stream.new "https://test.com/connect"))]).to_bytes =
      .error (.ValidationFailure [("url", "URL must start with 'wss://'")]) ∧
    (VoiceResponse.mk [Verb.Connect (Noun.Stream (Stream.new "wss://test.com/connect"))]).to_bytes =
      .ok "<?xml version=\x221.0\x22 encoding=\x22UTF-8\x22?><Response><Connect><Stream url=\x22wss://test.com/connect\x22 /></Connect></Response>" := by
  refine ⟨?_, ?_, by decide, by decide⟩
  · intro r v s hmem hv hw
    subst hv
    have hmemErr := wss_mem_stream_errors s hw
    have hne : s.errors ≠ [] := by
      intro h0
      rw [h0] at hmemErr
      cases hmemErr
    obtain ⟨e2, he2⟩ :=
      writeVerbs_err_of_mem r.verbs _ _ hmem (verbCheck_connect_stream_err s hne)
    exact ⟨e2, (to_bytes_error_iff r e2).mpr he2⟩
  · intro r pre s post hverbs hw hpre
    have hmemErr := wss_mem_stream_errors s hw
    have hne : s.errors ≠ [] := by
      intro h0
      rw [h0] at hmemErr
      cases hmemErr
    refine ⟨?_, hmemErr⟩
    rw [to_bytes_error_iff, hverbs]
    exact writeVerbs_firstErr pre _ post _ hpre (verbCheck_connect_stream_err s hne)

/-- C6 counterexample: a document whose first verb is `Connect(Conference)`
and whose second is a non-`wss` `Connect(Stream)` fails with
`UnsupportedNoun`, not with an invalid-websocket-url validation error. -/
theorem stream_wss_rule_cex :
    Verb.Connect (Noun.Stream (Stream.new "https://test.com/connect")) ∈
      (VoiceResponse.mk [Verb.Connect (Noun.Conference (Conference.new "x")),
        Verb.Connect (Noun.Stream (Stream.new "https://test.com/connect"))]).verbs ∧
    (VoiceResponse.mk [Verb.Connect (Noun.Conference (Conference.new "x")),
        Verb.Connect (Noun.Stream (Stream.new "https://test.com/connect"))]).to_bytes =
      .error TwilioError.UnsupportedNoun := by
  decide

/-- Witness for C6: the single-verb `https://` document fails with the
wss-rule error on the `url` field. -/
theorem stream_wss_rule_witness :
    (VoiceResponse.mk [Verb.Connect (Noun.Stream (Stream.new "https://test.com/connect"))]).to_bytes =
      .error (TwilioError.ValidationFailure (Stream.new "https://test.com/connect").errors) ∧
    ("url", "URL must start with 'wss://'") ∈ (Stream.new "https://test.com/connect").errors :=
  stream_wss_rule.2.1
    (VoiceResponse.mk [Verb.Connect (Noun.Stream (Stream.new "https://test.com/connect"))])
    [] (Stream.new "https://test.com/connect") []
    rfl (by decide) (by intro u hu; cases hu)

/-- C7: the one-verb `Connect(Stream{url:"wss://test.com/connect"})`
document serializes to exactly the expected byte string. -/
theorem connect_stream_exact_serialization :
    (VoiceResponse.mk [Verb.Connect (Noun.Stream (Stream.new "wss://test.com/connect"))]).to_bytes =
      .ok "<?xml version=\x221.0\x22 encoding=\x22UTF-8\x22?><Response><Connect><Stream url=\x22wss://test.com/connect\x22 /></Connect></Response>" := by
  decide

end Twiml

namespace Twiml

/-- C8: the builder methods append at the end (call order = document
order); every successful serialization of a nonempty document is the XML
declaration, the `<Response>` root, and the verbs' elements concatenated in
list order; appending `Reject` then `Connect(Stream)` puts `<Reject />`
before the `<Connect>` element. -/
theorem verb_order_preserved :
    (∀ (r : VoiceResponse) (v : Verb), (r.add_verb v).verbs = r.verbs ++ [v]) ∧
    (∀ (r : VoiceResponse) (n : Noun), (r.connect n).verbs = r.verbs ++ [Verb.Connect n]) ∧
    (∀ (r : VoiceResponse) (d : Dial), (r.dial d).verbs = r.verbs ++ [Verb.Dial d]) ∧
    (∀ r : VoiceResponse, r.reject.verbs = r.verbs ++ [Verb.Reject]) ∧
    (∀ (r : VoiceResponse) (out : String), r.verbs ≠ [] → r.to_bytes = .ok out →
      out = xmlDecl ++ "<Response>" ++ strJoin (r.verbs.map Verb.write_xml) ++ "</Response>") ∧
    (VoiceResponse.new.reject.connect (Noun.Stream (Stream.new "wss://test.com/connect"))).to_bytes =
      .ok (xmlDecl ++ "<Response>" ++ Verb.write_xml Verb.Reject ++
        Verb.write_xml (Verb.Connect (Noun.Stream (Stream.new "wss://test.com/connect"))) ++
        "</Response>") := by
  refine ⟨fun r v => rfl, fun r n => rfl, fun r d => rfl, fun r => rfl, ?_, by decide⟩
  intro r out hne hok
  unfold VoiceResponse.to_bytes at hok
  cases hw : writeVerbs r.verbs with
  | error e => rw [hw] at hok; simp at hok
  | ok body =>
    rw [hw] at hok
    simp only [Except.ok.injEq] at hok
    cases hv : r.verbs with
    | nil => exact absurd hv hne
    | cons v rest =>
      rw [hv] at hw
      have hbody := writeVerbs_cons_ok_ne_empty hw
      rw [if_neg hbody] at hok
      have hj := writeVerbs_ok_join _ _ hw
      rw [← hok, hj]
      simp [String.append_assoc]

/-- Witness for C8: the reject-then-connect document's output equals the
declaration, root, and the two elements joined in call order. -/
theorem verb_order_preserved_witness :
    "<?xml version=\x221.0\x22 encoding=\x22UTF-8\x22?><Response><Reject /><Connect><Stream url=\x22wss://test.com/connect\x22 /></Connect></Response>" =
      xmlDecl ++ "<Response>" ++
        strJoin ((VoiceResponse.mk [Verb.Reject,
          Verb.Connect (Noun.Stream (Stream.new "wss://test.com/connect"))]).verbs.map
            Verb.write_xml) ++ "</Response>" :=
  verb_order_preserved.2.2.2.2.1
    (VoiceResponse.mk [Verb.Reject, Verb.Connect (Noun.Stream (Stream.new "wss://test.com/connect"))])
    "<?xml version=\x221.0\x22 encoding=\x22UTF-8\x22?><Response><Reject /><Connect><Stream url=\x22wss://test.com/connect\x22 /></Connect></Response>"
    (by decide) (by decide)

/-- C9: a present `participant_label` yields a validation error identifying
the field exactly when it is longer than 128 characters; a 128-character
label under `Dial(Conference)` serializes successfully, while a
129-character label fails with the length error. -/
theorem participant_label_length_rule :
    (∀ (c : Conference) (s : String), c.participant_label = some s →
      ((∃ m, ("participant_label", m) ∈ c.errors) ↔ 128 < s.length)) ∧
    (VoiceResponse.mk [Verb.Dial (Dial.new (Noun.Conference
        { Conference.new "Room" with
            participant_label := some (String.mk (List.replicate 128 'a')) }))]).to_bytes =
      .ok (xmlDecl ++ "<Response><Dial><Conference participantLabel=\x22" ++
        String.mk (List.replicate 128 'a') ++ "\x22>Room</Conference></Dial></Response>") ∧
    (VoiceResponse.mk [Verb.Dial (Dial.new (Noun.Conference
        { Conference.new "Room" with
            participant_label := some (String.mk (List.replicate 129 'a')) }))]).to_bytes =
      .error (.ValidationFailure [("participant_label", "length")]) := by
  refine ⟨?_, by decide, by decide⟩
  intro c s hcs
  constructor
  · rintro ⟨m, hm⟩
    rw [mem_errors_participant_iff] at hm
    unfold Conference.participantLabelErrs at hm
    simp only [hcs] at hm
    by_cases hl : s.length ≤ 128
    · rw [if_pos hl] at hm; simp at hm
    · omega
  · intro hl
    refine ⟨"length", ?_⟩
    rw [mem_errors_participant_iff]
    unfold Conference.participantLabelErrs
    simp only [hcs]
    rw [if_neg (by omega)]
    simp

/-- Witness for C9: the 129-character label yields the length error. -/
theorem participant_label_length_rule_witness :
    (∃ m, ("participant_label", m) ∈
        ({ Conference.new "Room" with
            participant_label := some (String.mk (List.replicate 129 'a')) } : Conference).errors) ↔
      128 < (String.mk (List.replicate 129 'a')).length :=
  participant_label_length_rule.1
    ({ Conference.new "Room" with
        participant_label := some (String.mk (List.replicate 129 'a')) })
    (String.mk (List.replicate 129 'a')) rfl

end Twiml
